import Mathlib

/-!
# Optical-fibre ray simulation (`src/main.cpp`)

A shallow embedding of the ray physics (`LightRay::update`), of the ray `main` spawns and of
the update-then-cull step of its frame loop, and the properties the specification states
about them.

The C++ `float` carrier is kept abstract: every definition is written over an arbitrary
type `F` carrying the arithmetic operators, the comparisons and the `<cmath>` functions the
source calls (`CMath`), so the definitions are executable on any carrier that implements
them.  Properties that only depend on the control flow are proved for every such carrier.
Properties that depend on what the arithmetic computes are proved for the carrier `ℝ`,
i.e. for exact real arithmetic.  Rounding, infinities and NaN are not represented there:
`x / 0` is `0` and `acos`, `asin` are clamped outside `[-1, 1]`, so the real-arithmetic
statements describe the C++ computation where it stays inside the domains of these
functions (at a boundary interaction: non-zero velocity and `n2 ≠ 0`), and up to rounding.
A property that turns on the sign of a quantity that is exactly zero in real arithmetic,
such as `sin (acos (-1))`, is not settled by exact arithmetic; the readout test of line 150
is therefore characterised for every carrier.

Two library calls are modelled from their documented behaviour: `setRotation` of SFML 2
stores the angle reduced to `[0, 360)`, and `std::remove_if` followed by `erase` is the
usual in-place compaction loop.
-/

set_option linter.unusedSectionVars false
set_option linter.unusedVariables false

namespace Fibre

/-! ## Numeric carrier -/

/-- The `<cmath>` functions used by the source (`std::sqrt`, `std::sin`, `std::cos`,
`std::acos`, `std::asin`, `std::atan2`, `std::fmod`) and the constant
`static_cast<float>(M_PI)`. -/
class CMath (F : Type) where
  pi : F
  sqrt : F → F
  sin : F → F
  cos : F → F
  acos : F → F
  asin : F → F
  atan2 : F → F → F
  fmod : F → F → F

/-- Truncation toward zero of a real number, as an integer. -/
noncomputable def truncR (x : ℝ) : ℤ := if 0 ≤ x then ⌊x⌋ else ⌈x⌉

/-- Exact real arithmetic as a carrier.  `atan2 y x` is the argument of `x + y i`, in
`(-π, π]`, and `atan2 0 0 = 0`; `fmod a b` is `a - b * trunc (a / b)`. -/
noncomputable instance instCMathReal : CMath ℝ where
  pi := Real.pi
  sqrt := Real.sqrt
  sin := Real.sin
  cos := Real.cos
  acos := Real.arccos
  asin := Real.arcsin
  atan2 := fun y x => Complex.arg ⟨x, y⟩
  fmod := fun a b => a - b * (truncR (a / b) : ℝ)

/-! ## Data model -/

/-- The type `sf::Vector2f`. -/
structure Vector2f (F : Type) where
  x : F
  y : F

/-- The two fill colours the program uses. -/
inductive Color where
  | Cyan
  | Red
  deriving DecidableEq, Repr

/-- The struct `LightRay`.  Of the `sf::RectangleShape` member only the position, the
rotation (degrees) and the fill colour vary; its size is always `(50, 2)`. -/
structure LightRay (F : Type) where
  position : Vector2f F
  rotation : F
  fillColor : Color
  velocity : Vector2f F
  exited : Bool
  currentIncidenceAngle : F
  currentRefractionAngle : F
  hasUpdatedAngles : Bool

/-! ## The erase-remove idiom on `std::vector` -/

/-- The algorithm `std::find_if(first, last, p)` on the vector `v`, with `last = v.end()`:
the index of the first element from `first` on that satisfies `p`, or the length. -/
def findIf {α : Type} (p : α → Bool) (v : List α) (first : Nat) : Nat :=
  if h : first < v.length then
    if p v[first] then first else findIf p v (first + 1)
  else v.length
termination_by v.length - first

/-- The loop of `std::remove_if`: `for (i = first; ++i != last;) if (!p(*i)) *first++ =
std::move(*i);`, entered here with `i` already incremented.  Returns the vector and the
final `first`. -/
def removeIfLoop {α : Type} (p : α → Bool) (v : List α) (first i : Nat) : List α × Nat :=
  if h : i < v.length then
    if p v[i] then removeIfLoop p v first (i + 1)
    else removeIfLoop p (v.set first v[i]) (first + 1) (i + 1)
  else (v, first)
termination_by v.length - i
decreasing_by
  all_goals simp_wf
  all_goals omega

/-- The algorithm `std::remove_if(v.begin(), v.end(), p)`: the vector after the shuffle
and the index of the returned iterator. -/
def removeIf {α : Type} (p : α → Bool) (v : List α) : List α × Nat :=
  let first : Nat := findIf p v 0
  if first < v.length then removeIfLoop p v first (first + 1) else (v, first)

/-- The statement `v.erase(std::remove_if(v.begin(), v.end(), p), v.end())`. -/
def eraseRemoveIf {α : Type} (p : α → Bool) (v : List α) : List α :=
  let res : List α × Nat := removeIf p v
  res.1.take res.2

/-! ## The ray and the frame loop -/

section Generic

variable {F : Type} [Zero F] [One F] [NatCast F] [Add F] [Sub F] [Mul F] [Div F] [Neg F]
  [LE F] [LT F] [∀ a b : F, Decidable (a ≤ b)] [∀ a b : F, Decidable (a < b)] [CMath F]

/-- The function `degToRad`: `degrees * static_cast<float>(M_PI) / 180.f`. -/
def degToRad (degrees : F) : F := degrees * CMath.pi / 180

/-- The function `radToDeg`: `radians * 180.f / static_cast<float>(M_PI)`. -/
def radToDeg (radians : F) : F := radians * 180 / CMath.pi

/-- Vector addition, `operator+` of `sf::Vector2f`. -/
def Vector2f.add (a b : Vector2f F) : Vector2f F := ⟨a.x + b.x, a.y + b.y⟩

/-- Division of a vector by a scalar, `operator/` of `sf::Vector2f`. -/
def Vector2f.divScalar (a : Vector2f F) (s : F) : Vector2f F := ⟨a.x / s, a.y / s⟩

/-- The length `shape.getSize().x` of the drawn ray (set once, by the constructor). -/
def raySizeX : F := 50

/-- The call `shape.move(offset)`: the position becomes `position + offset`. -/
def LightRay.move (r : LightRay F) (offset : Vector2f F) : LightRay F :=
  { r with position := r.position.add offset }

/-- The call `shape.setRotation(angle)` of SFML 2: the stored angle is `fmod(angle, 360)`,
plus `360` when that is negative, so `getRotation` always lies in `[0, 360)`. -/
def LightRay.setRotation (r : LightRay F) (angle : F) : LightRay F :=
  let m : F := CMath.fmod angle 360
  { r with rotation := if m < 0 then m + 360 else m }

/-- The constructor `LightRay(position, velocity)` (lines 28-37). -/
def LightRay.new (position velocity : Vector2f F) : LightRay F :=
  let r : LightRay F :=
    { position := position
      rotation := 0
      fillColor := Color.Cyan
      velocity := velocity
      exited := false
      currentIncidenceAngle := 0
      currentRefractionAngle := 0
      hasUpdatedAngles := false }
  let angle : F := radToDeg (CMath.atan2 velocity.y velocity.x)
  r.setRotation angle

/-- The leading edge of the ray (lines 47-50): the position plus the ray length along the
stored rotation. -/
def LightRay.frontPoint (r : LightRay F) : Vector2f F :=
  let angleRad : F := degToRad r.rotation
  let frontOffset : Vector2f F := ⟨CMath.cos angleRad * raySizeX, CMath.sin angleRad * raySizeX⟩
  r.position.add frontOffset

/-- The boundary test of line 52. -/
def crossesBoundary (frontPoint : Vector2f F) (fiberTop fiberBottom : F) : Prop :=
  frontPoint.y ≤ fiberTop ∨ fiberBottom ≤ frontPoint.y

instance instDecidableCrossesBoundary (frontPoint : Vector2f F) (fiberTop fiberBottom : F) :
    Decidable (crossesBoundary frontPoint fiberTop fiberBottom) :=
  inferInstanceAs (Decidable (frontPoint.y ≤ fiberTop ∨ fiberBottom ≤ frontPoint.y))

/-- The boundary normal of line 53: `(0, 1)` at the top boundary, `(0, -1)` otherwise. -/
def boundaryNormal (frontPoint : Vector2f F) (fiberTop : F) : Vector2f F :=
  if frontPoint.y ≤ fiberTop then ⟨0, 1⟩ else ⟨0, -1⟩

/-- The magnitude `std::sqrt(velocity.x * velocity.x + velocity.y * velocity.y)`. -/
def magnitude (v : Vector2f F) : F := CMath.sqrt (v.x * v.x + v.y * v.y)

/-- The value `cosTheta1` of lines 54-56: the dot product of the normalised velocity with
the normal. -/
def cosTheta1 (velocity normal : Vector2f F) : F :=
  let vNorm : Vector2f F := velocity.divScalar (magnitude velocity)
  vNorm.x * normal.x + vNorm.y * normal.y

/-- The value `sinTheta2` of line 58 (Snell's law). -/
def sinTheta2 (n1 n2 theta1 : F) : F := (n1 / n2) * CMath.sin theta1

/-- The body of the boundary branch (lines 53-80), run on the ray after it has moved;
`frontPoint` is its leading edge. -/
def LightRay.interact (r : LightRay F) (frontPoint : Vector2f F) (fiberTop n1 n2 : F) :
    LightRay F :=
  let normal : Vector2f F := boundaryNormal frontPoint fiberTop
  let theta1 : F := CMath.acos (cosTheta1 r.velocity normal)
  let s2 : F := sinTheta2 n1 n2 theta1
  let r1 : LightRay F :=
    { r with currentIncidenceAngle := radToDeg theta1, hasUpdatedAngles := true }
  let r2 : LightRay F :=
    if 1 < s2 then
      { r1 with
        velocity := ⟨r1.velocity.x, -r1.velocity.y⟩
        currentRefractionAngle := -1 }
    else
      let theta2 : F := CMath.asin s2
      let speed : F := magnitude r1.velocity
      let sign : F := if frontPoint.y ≤ fiberTop then -1 else 1
      { r1 with
        currentRefractionAngle := radToDeg theta2
        velocity := ⟨CMath.cos theta2 * speed, sign * CMath.sin theta2 * speed⟩
        exited := true
        fillColor := Color.Red }
  let newAngle : F := CMath.atan2 r2.velocity.y r2.velocity.x
  r2.setRotation (radToDeg newAngle)

/-- The method `LightRay::update` (lines 39-82). -/
def LightRay.update (r : LightRay F) (fiberTop fiberBottom n1 n2 : F) : LightRay F :=
  if r.exited then
    r.move r.velocity
  else
    let r1 : LightRay F := r.move r.velocity
    let frontPoint : Vector2f F := r1.frontPoint
    if crossesBoundary frontPoint fiberTop fiberBottom then
      r1.interact frontPoint fiberTop n1 n2
    else
      r1

/-- The method `LightRay::isOutOfBounds` (lines 84-87). -/
def LightRay.isOutOfBounds (r : LightRay F) : Bool :=
  let pos : Vector2f F := r.position
  decide (800 < pos.x) || decide (pos.y < 0) || decide (600 < pos.y)

/-- The constant `fiberTop` of `main` (line 93). -/
def Main.fiberTop : F := 200

/-- The constant `fiberBottom` of `main` (line 94). -/
def Main.fiberBottom : F := 400

/-- The ray `main` creates from the angle typed by the user (lines 104-106 and 128); the
literal `1.2f` is written `12 / 10`. -/
def Main.initialRay (angleDeg : F) : LightRay F :=
  let angleRad : F := degToRad angleDeg
  let initialVelocity : Vector2f F :=
    ⟨CMath.cos angleRad * (12 / 10), CMath.sin angleRad * (12 / 10)⟩
  let initialPosition : Vector2f F := ⟨100, 300⟩
  LightRay.new initialPosition initialVelocity

/-- The test of line 150, which makes the readout show the text `Refraction: TIR`. -/
def LightRay.showsTIR (r : LightRay F) : Bool := decide (r.currentRefractionAngle < 0)

/-- One simulation tick of `main` (lines 138-143): every ray is updated, then the rays that
are out of bounds are erased. -/
def Main.tick (rays : List (LightRay F)) (fiberTop fiberBottom n1 n2 : F) : List (LightRay F) :=
  let updated : List (LightRay F) := rays.map (fun ray => ray.update fiberTop fiberBottom n1 n2)
  eraseRemoveIf (fun r => r.isOutOfBounds) updated

/-- The leading edge examined by `update`: the front point after the move of line 45. -/
def LightRay.leadingEdge (r : LightRay F) : Vector2f F := (r.move r.velocity).frontPoint

/-- The ray triggers a boundary interaction in `update` (the test of line 52 succeeds). -/
def LightRay.hits (r : LightRay F) (fiberTop fiberBottom : F) : Prop :=
  crossesBoundary r.leadingEdge fiberTop fiberBottom

/-- The value `theta1` (radians) that `update` computes at line 57. -/
def LightRay.theta1 (r : LightRay F) (fiberTop : F) : F :=
  CMath.acos (cosTheta1 r.velocity (boundaryNormal r.leadingEdge fiberTop))

/-- The value `sinTheta2` that `update` computes at line 58. -/
def LightRay.snell (r : LightRay F) (fiberTop n1 n2 : F) : F :=
  sinTheta2 n1 n2 (r.theta1 fiberTop)

/-- The result of `k` successive calls of `update`. -/
def LightRay.updateN (fiberTop fiberBottom n1 n2 : F) : Nat → LightRay F → LightRay F
  | 0, r => r
  | k + 1, r => (LightRay.updateN fiberTop fiberBottom n1 n2 k r).update fiberTop fiberBottom n1 n2

end Generic

/-- The acute angle, in degrees, between the line of direction `v` and the boundary normal
line (the `y` axis). -/
noncomputable def acuteAngleToNormal (v : Vector2f ℝ) : ℝ :=
  radToDeg (Real.arccos (|v.y| / magnitude v))

/-- The ray of the program started with the angle `60`, `n1 = 1.5` and `n2 = 1.0`, after
`k` updates by the frame loop. -/
noncomputable def Main.scenarioRay (k : Nat) : LightRay ℝ :=
  LightRay.updateN Main.fiberTop Main.fiberBottom 1.5 1 k (Main.initialRay 60)

/-! ## Example rays -/

/-- A ray meeting the top boundary at `theta1 = 60` degrees: velocity `(sqrt 3, 1)`,
rotation `30` degrees. -/
noncomputable def Examples.ray60 : LightRay ℝ :=
  { position := ⟨100, 150⟩
    rotation := 30
    fillColor := Color.Cyan
    velocity := ⟨Real.sqrt 3, 1⟩
    exited := false
    currentIncidenceAngle := 0
    currentRefractionAngle := 0
    hasUpdatedAngles := false }

/-- A ray meeting the top boundary at `theta1 = 30` degrees: velocity `(1, sqrt 3)`,
rotation `60` degrees. -/
noncomputable def Examples.ray30 : LightRay ℝ :=
  { position := ⟨100, 100⟩
    rotation := 60
    fillColor := Color.Cyan
    velocity := ⟨1, Real.sqrt 3⟩
    exited := false
    currentIncidenceAngle := 0
    currentRefractionAngle := 0
    hasUpdatedAngles := false }

/-- An exited ray whose leading edge lies above the top boundary `200`. -/
noncomputable def Examples.exitedRay : LightRay ℝ :=
  { position := ⟨500, 150⟩
    rotation := 0
    fillColor := Color.Red
    velocity := ⟨4, -3⟩
    exited := true
    currentIncidenceAngle := 120
    currentRefractionAngle := 40
    hasUpdatedAngles := true }

/-- A ray built by the constructor, travelling up toward the top boundary `200`. -/
noncomputable def Examples.risingRay : LightRay ℝ := LightRay.new ⟨100, 233⟩ ⟨4, -3⟩

/-- The mirror image of `risingRay` about the mid-line of the fibre `200 .. 400`. -/
noncomputable def Examples.fallingRay : LightRay ℝ :=
  { Examples.risingRay with
    position := ⟨100, 367⟩
    velocity := ⟨4, 3⟩
    rotation := (Examples.risingRay.setRotation (-Examples.risingRay.rotation)).rotation }

/-! ## Control-flow facts, valid for every carrier -/

section GenericFacts

variable {F : Type} [Zero F] [One F] [NatCast F] [Add F] [Sub F] [Mul F] [Div F] [Neg F]
  [LE F] [LT F] [∀ a b : F, Decidable (a ≤ b)] [∀ a b : F, Decidable (a < b)] [CMath F]

theorem update_of_exited (r : LightRay F) (fiberTop fiberBottom n1 n2 : F)
    (hex : r.exited = true) :
    r.update fiberTop fiberBottom n1 n2 = r.move r.velocity := by
  simp [LightRay.update, hex]

theorem update_of_not_hits (r : LightRay F) (fiberTop fiberBottom n1 n2 : F)
    (hex : r.exited = false) (hno : ¬ r.hits fiberTop fiberBottom) :
    r.update fiberTop fiberBottom n1 n2 = r.move r.velocity := by
  unfold LightRay.hits LightRay.leadingEdge at hno
  simp [LightRay.update, hex, hno]

theorem update_of_hits (r : LightRay F) (fiberTop fiberBottom n1 n2 : F)
    (hex : r.exited = false) (hhit : r.hits fiberTop fiberBottom) :
    r.update fiberTop fiberBottom n1 n2 =
      (r.move r.velocity).interact r.leadingEdge fiberTop n1 n2 := by
  unfold LightRay.hits LightRay.leadingEdge at hhit
  simp [LightRay.update, hex, hhit, LightRay.leadingEdge]

theorem update_of_tir (r : LightRay F) (fiberTop fiberBottom n1 n2 : F)
    (hex : r.exited = false) (hhit : r.hits fiberTop fiberBottom)
    (htir : 1 < r.snell fiberTop n1 n2) :
    r.update fiberTop fiberBottom n1 n2 =
      LightRay.setRotation
        { r with
          position := r.position.add r.velocity
          velocity := ⟨r.velocity.x, -r.velocity.y⟩
          currentIncidenceAngle := radToDeg (r.theta1 fiberTop)
          currentRefractionAngle := -1
          hasUpdatedAngles := true }
        (radToDeg (CMath.atan2 (-r.velocity.y) r.velocity.x)) := by
  rw [update_of_hits r fiberTop fiberBottom n1 n2 hex hhit]
  unfold LightRay.snell LightRay.theta1 at htir
  have hv : (r.move r.velocity).velocity = r.velocity := rfl
  simp only [LightRay.interact, hv, if_pos htir]
  rfl

theorem update_of_refraction (r : LightRay F) (fiberTop fiberBottom n1 n2 : F)
    (hex : r.exited = false) (hhit : r.hits fiberTop fiberBottom)
    (hno : ¬ 1 < r.snell fiberTop n1 n2) :
    r.update fiberTop fiberBottom n1 n2 =
      LightRay.setRotation
        { r with
          position := r.position.add r.velocity
          velocity :=
            ⟨CMath.cos (CMath.asin (r.snell fiberTop n1 n2)) * magnitude r.velocity,
             (if r.leadingEdge.y ≤ fiberTop then -1 else 1)
                * CMath.sin (CMath.asin (r.snell fiberTop n1 n2)) * magnitude r.velocity⟩
          exited := true
          fillColor := Color.Red
          currentIncidenceAngle := radToDeg (r.theta1 fiberTop)
          currentRefractionAngle := radToDeg (CMath.asin (r.snell fiberTop n1 n2))
          hasUpdatedAngles := true }
        (radToDeg (CMath.atan2
          ((if r.leadingEdge.y ≤ fiberTop then -1 else 1)
                * CMath.sin (CMath.asin (r.snell fiberTop n1 n2)) * magnitude r.velocity)
          (CMath.cos (CMath.asin (r.snell fiberTop n1 n2)) * magnitude r.velocity))) := by
  rw [update_of_hits r fiberTop fiberBottom n1 n2 hex hhit]
  unfold LightRay.snell LightRay.theta1 at hno
  have hv : (r.move r.velocity).velocity = r.velocity := rfl
  simp only [LightRay.interact, hv, if_neg hno]
  rfl

@[simp] theorem setRotation_position (r : LightRay F) (a : F) :
    (r.setRotation a).position = r.position := rfl
@[simp] theorem setRotation_velocity (r : LightRay F) (a : F) :
    (r.setRotation a).velocity = r.velocity := rfl
@[simp] theorem setRotation_exited (r : LightRay F) (a : F) :
    (r.setRotation a).exited = r.exited := rfl
@[simp] theorem setRotation_incidence (r : LightRay F) (a : F) :
    (r.setRotation a).currentIncidenceAngle = r.currentIncidenceAngle := rfl
@[simp] theorem setRotation_refraction (r : LightRay F) (a : F) :
    (r.setRotation a).currentRefractionAngle = r.currentRefractionAngle := rfl
@[simp] theorem setRotation_hasUpdated (r : LightRay F) (a : F) :
    (r.setRotation a).hasUpdatedAngles = r.hasUpdatedAngles := rfl
@[simp] theorem setRotation_fillColor (r : LightRay F) (a : F) :
    (r.setRotation a).fillColor = r.fillColor := rfl

/-- C1 (total internal reflection), for every carrier: a non-exited ray whose leading edge
after the move is at or beyond a boundary and for which the computed `sinTheta2` exceeds
`1` keeps `vx`, gets `vy` replaced by `-vy`, stays non-exited and records the sentinel
`-1` as refraction angle. -/
theorem update_total_internal_reflection (r : LightRay F) (fiberTop fiberBottom n1 n2 : F)
    (hex : r.exited = false) (hhit : r.hits fiberTop fiberBottom)
    (htir : 1 < r.snell fiberTop n1 n2) :
    (r.update fiberTop fiberBottom n1 n2).velocity.x = r.velocity.x ∧
    (r.update fiberTop fiberBottom n1 n2).velocity.y = -r.velocity.y ∧
    (r.update fiberTop fiberBottom n1 n2).exited = false ∧
    (r.update fiberTop fiberBottom n1 n2).currentRefractionAngle = -1 := by
  rw [update_of_hits r fiberTop fiberBottom n1 n2 hex hhit]
  unfold LightRay.snell LightRay.theta1 at htir
  simp [LightRay.interact, LightRay.setRotation, LightRay.move, htir, hex]

theorem removeIfLoop_spec {α : Type} (p : α → Bool) :
    ∀ (n : Nat) (v : List α) (first i : Nat), v.length - i = n → first ≤ i → i ≤ v.length →
      (removeIfLoop p v first i).1.take (removeIfLoop p v first i).2
        = v.take first ++ (v.drop i).filter (fun a => !p a) := by
  intro n
  induction n with
  | zero =>
    intro v first i hn hfi hil
    have hi : i = v.length := by omega
    rw [removeIfLoop]
    simp [hi]
  | succ n ih =>
    intro v first i hn hfi hil
    have hlt : i < v.length := by omega
    rw [removeIfLoop]
    simp only [hlt, dite_true]
    have hdrop : v.drop i = v[i] :: v.drop (i + 1) := List.drop_eq_getElem_cons hlt
    by_cases hp : p v[i] = true
    · simp only [hp, if_true]
      rw [ih v first (i + 1) (by omega) (by omega) (by omega), hdrop,
        List.filter_cons_of_neg (by simp [hp])]
    · have hp' : p v[i] = false := by simpa using hp
      simp only [hp', Bool.false_eq_true, if_false]
      rw [ih (v.set first v[i]) (first + 1) (i + 1) (by simp; omega) (by omega)
        (by simp; omega)]
      have h1 : (v.set first v[i]).take (first + 1) = v.take first ++ [v[i]] := by
        rw [List.take_succ, List.set_take,
          List.set_eq_of_length_le (by rw [List.length_take]; omega)]
        simp [List.getElem?_set, show first < v.length by omega]
      have h2 : (v.set first v[i]).drop (i + 1) = v.drop (i + 1) := by
        rw [List.drop_set_of_lt]
        omega
      rw [h1, h2, hdrop, List.filter_cons_of_pos (by simp [hp']), List.append_assoc]
      rfl

theorem findIf_spec {α : Type} (p : α → Bool) :
    ∀ (n : Nat) (v : List α) (k : Nat), v.length - k = n → k ≤ v.length →
      findIf p v k ≤ v.length ∧
      (∀ a : α, v[findIf p v k]? = some a → p a = true) ∧
      v.take (findIf p v k) ++ (v.drop (findIf p v k)).filter (fun a => !p a)
        = v.take k ++ (v.drop k).filter (fun a => !p a) := by
  intro n
  induction n with
  | zero =>
    intro v k hn hk
    have hkl : ¬ k < v.length := by omega
    rw [findIf]
    simp only [hkl, dite_false]
    have : k = v.length := by omega
    subst this
    simp
  | succ n ih =>
    intro v k hn hk
    have hlt : k < v.length := by omega
    rw [findIf]
    simp only [hlt, dite_true]
    by_cases hp : p v[k] = true
    · rw [if_pos hp]
      refine ⟨hk, ?_, rfl⟩
      intro a ha
      rw [List.getElem?_eq_getElem hlt] at ha
      cases ha
      exact hp
    · rw [if_neg hp]
      have hp' : p v[k] = false := by simpa using hp
      obtain ⟨h1, h2, h3⟩ := ih v (k + 1) (by omega) (by omega)
      refine ⟨h1, h2, ?_⟩
      rw [h3, List.drop_eq_getElem_cons hlt, List.filter_cons_of_pos (by simp [hp']),
        List.take_succ, List.getElem?_eq_getElem hlt]
      simp only [Option.toList, List.append_assoc, List.singleton_append]

theorem eraseRemoveIf_eq_filter {α : Type} (p : α → Bool) (v : List α) :
    eraseRemoveIf p v = v.filter (fun a => !p a) := by
  obtain ⟨h1, h2, h3⟩ := findIf_spec p v.length v 0 rfl (Nat.zero_le _)
  simp only [List.take_zero, List.drop_zero, List.nil_append] at h3
  unfold eraseRemoveIf removeIf
  by_cases hlt : findIf p v 0 < v.length
  · simp only [hlt, if_true]
    rw [removeIfLoop_spec p _ v (findIf p v 0) (findIf p v 0 + 1) rfl (by omega) (by omega),
      ← h3, List.drop_eq_getElem_cons hlt, List.filter_cons_of_neg]
    have := h2 _ (List.getElem?_eq_getElem hlt)
    simpa using this
  · simp only [hlt, if_false]
    have hlen : findIf p v 0 = v.length := by omega
    rw [← h3, hlen]
    simp

/-- C7 (culling), for every carrier: one tick returns exactly the updated rays, in their
original order, that are not out of bounds; a ray is in the result if and only if it is an
updated ray whose position does not satisfy `x > 800 or y < 0 or y > 600`, which is what
`isOutOfBounds` computes. -/
theorem tick_culls_out_of_bounds (rays : List (LightRay F)) (fiberTop fiberBottom n1 n2 : F) :
    Main.tick rays fiberTop fiberBottom n1 n2
      = (rays.map (fun ray => ray.update fiberTop fiberBottom n1 n2)).filter
          (fun r => !r.isOutOfBounds) ∧
    (∀ r : LightRay F, r ∈ Main.tick rays fiberTop fiberBottom n1 n2 ↔
      r ∈ rays.map (fun ray => ray.update fiberTop fiberBottom n1 n2) ∧
        ¬ (800 < r.position.x ∨ r.position.y < 0 ∨ 600 < r.position.y)) ∧
    (∀ r : LightRay F, r.isOutOfBounds = true ↔
      (800 < r.position.x ∨ r.position.y < 0 ∨ 600 < r.position.y)) := by
  have hoob : ∀ r : LightRay F, r.isOutOfBounds = true ↔
      (800 < r.position.x ∨ r.position.y < 0 ∨ 600 < r.position.y) := by
    intro r
    simp [LightRay.isOutOfBounds, or_assoc]
  have heq : Main.tick rays fiberTop fiberBottom n1 n2
      = (rays.map (fun ray => ray.update fiberTop fiberBottom n1 n2)).filter
          (fun r => !r.isOutOfBounds) := by
    unfold Main.tick
    exact eraseRemoveIf_eq_filter _ _
  refine ⟨heq, ?_, hoob⟩
  intro r
  rw [heq, List.mem_filter, ← hoob r]
  simp

end GenericFacts

/-! ## Exact real arithmetic -/

section RealFacts

@[simp] theorem cmath_pi_real : (CMath.pi : ℝ) = Real.pi := rfl
@[simp] theorem cmath_sqrt_real (x : ℝ) : CMath.sqrt x = Real.sqrt x := rfl
@[simp] theorem cmath_sin_real (x : ℝ) : CMath.sin x = Real.sin x := rfl
@[simp] theorem cmath_cos_real (x : ℝ) : CMath.cos x = Real.cos x := rfl
@[simp] theorem cmath_acos_real (x : ℝ) : CMath.acos x = Real.arccos x := rfl
@[simp] theorem cmath_asin_real (x : ℝ) : CMath.asin x = Real.arcsin x := rfl
theorem cmath_atan2_real (y x : ℝ) : CMath.atan2 y x = Complex.arg ⟨x, y⟩ := rfl
theorem cmath_fmod_real (a b : ℝ) : CMath.fmod a b = a - b * (truncR (a / b) : ℝ) := rfl

theorem magnitude_real (v : Vector2f ℝ) : magnitude v = Real.sqrt (v.x * v.x + v.y * v.y) := rfl

theorem magnitude_nonneg (v : Vector2f ℝ) : 0 ≤ magnitude v := Real.sqrt_nonneg _

theorem degToRad_radToDeg (θ : ℝ) : degToRad (radToDeg θ) = θ := by
  simp only [degToRad, radToDeg, cmath_pi_real]
  field_simp

theorem magnitude_polar (θ s σ : ℝ) (hs : 0 ≤ s) (hσ : σ = -1 ∨ σ = 1) :
    magnitude (⟨Real.cos θ * s, σ * Real.sin θ * s⟩ : Vector2f ℝ) = s := by
  rw [magnitude_real]
  have h : Real.cos θ * s * (Real.cos θ * s) + σ * Real.sin θ * s * (σ * Real.sin θ * s)
      = s ^ 2 := by
    have h1 := Real.sin_sq_add_cos_sq θ
    have h2 : σ ^ 2 = 1 := by rcases hσ with h | h <;> rw [h] <;> norm_num
    calc Real.cos θ * s * (Real.cos θ * s) + σ * Real.sin θ * s * (σ * Real.sin θ * s)
        = s ^ 2 * (Real.cos θ ^ 2 + σ ^ 2 * Real.sin θ ^ 2) := by ring
      _ = s ^ 2 * (Real.sin θ ^ 2 + Real.cos θ ^ 2) := by rw [h2]; ring
      _ = s ^ 2 := by rw [h1]; ring
  show Real.sqrt (Real.cos θ * s * (Real.cos θ * s) + σ * Real.sin θ * s * (σ * Real.sin θ * s)) = s
  rw [h, Real.sqrt_sq hs]

theorem vector2f_ext {F : Type} (a b : Vector2f F) (hx : a.x = b.x) (hy : a.y = b.y) : a = b := by
  cases a; cases b; simp_all

theorem magnitude_pos_of_y_ne (v : Vector2f ℝ) (h : v.y ≠ 0) : 0 < magnitude v := by
  rw [magnitude_real]
  apply Real.sqrt_pos.mpr
  have : 0 < v.y * v.y := mul_self_pos.mpr h
  nlinarith [mul_self_nonneg v.x]

theorem abs_y_le_magnitude (v : Vector2f ℝ) : |v.y| ≤ magnitude v := by
  rw [magnitude_real]
  apply Real.abs_le_sqrt
  nlinarith [mul_self_nonneg v.x]

theorem theta1_toward (r : LightRay ℝ) (fiberTop fiberBottom : ℝ) (hgeo : fiberTop < fiberBottom)
    (hto : (r.velocity.y < 0 ∧ r.leadingEdge.y ≤ fiberTop) ∨
           (0 < r.velocity.y ∧ fiberBottom ≤ r.leadingEdge.y)) :
    r.theta1 fiberTop = Real.pi - Real.arccos (|r.velocity.y| / magnitude r.velocity) := by
  unfold LightRay.theta1 cosTheta1 boundaryNormal Vector2f.divScalar
  simp only [cmath_acos_real]
  rw [← Real.arccos_neg]
  congr 1
  rcases hto with ⟨hv, hf⟩ | ⟨hv, hf⟩
  · rw [if_pos hf, abs_of_neg hv]
    simp
    ring
  · have hnt : ¬ r.leadingEdge.y ≤ fiberTop := by linarith
    rw [if_neg hnt, abs_of_pos hv]
    simp

theorem setRotation_rotation_eq (r : LightRay ℝ) (a : ℝ) :
    ∃ k : ℤ, (r.setRotation a).rotation = a - 360 * (k : ℝ) := by
  unfold LightRay.setRotation
  simp only [cmath_fmod_real]
  by_cases h : a - 360 * (truncR (a / 360) : ℝ) < 0
  · refine ⟨truncR (a / 360) - 1, ?_⟩
    rw [if_pos h]
    push_cast
    ring
  · exact ⟨truncR (a / 360), by rw [if_neg h]⟩

theorem degToRad_sub_turns (a : ℝ) (k : ℤ) :
    degToRad (a - 360 * (k : ℝ)) = degToRad a - (k : ℝ) * (2 * Real.pi) := by
  unfold degToRad
  simp only [cmath_pi_real]
  ring

theorem sin_degToRad_sub_turns (a : ℝ) (k : ℤ) :
    Real.sin (degToRad (a - 360 * (k : ℝ))) = Real.sin (degToRad a) := by
  rw [degToRad_sub_turns, Real.sin_sub_int_mul_two_pi]

theorem sin_setRotation (r : LightRay ℝ) (a : ℝ) :
    Real.sin (degToRad (r.setRotation a).rotation) = Real.sin (degToRad a) := by
  obtain ⟨k, hk⟩ := setRotation_rotation_eq r a
  rw [hk, sin_degToRad_sub_turns]

theorem sin_atan2 (y x : ℝ) : Real.sin (CMath.atan2 y x) = y / magnitude ⟨x, y⟩ := by
  rw [cmath_atan2_real, Complex.sin_arg, magnitude_real, Complex.abs_apply, Complex.normSq_apply]

theorem frontPoint_y (r : LightRay ℝ) :
    r.frontPoint.y = r.position.y + Real.sin (degToRad r.rotation) * 50 := by
  simp [LightRay.frontPoint, Vector2f.add, raySizeX]

theorem leadingEdge_y (r : LightRay ℝ) :
    r.leadingEdge.y = r.position.y + r.velocity.y + Real.sin (degToRad r.rotation) * 50 := by
  simp [LightRay.leadingEdge, LightRay.frontPoint, LightRay.move, Vector2f.add, raySizeX]

theorem magnitude_neg_y (x y : ℝ) : magnitude (⟨x, -y⟩ : Vector2f ℝ) = magnitude ⟨x, y⟩ := by
  simp [magnitude_real]

theorem sin_rotation_of_direction (r : LightRay ℝ)
    (hrot : r.rotation = radToDeg (CMath.atan2 r.velocity.y r.velocity.x) ∨
      r.rotation = (r.setRotation (radToDeg (CMath.atan2 r.velocity.y r.velocity.x))).rotation) :
    Real.sin (degToRad r.rotation) = r.velocity.y / magnitude r.velocity := by
  rcases hrot with h | h
  · rw [h, degToRad_radToDeg, sin_atan2]
  · rw [h, sin_setRotation, degToRad_radToDeg, sin_atan2]

theorem sin_degToRad_neg (a : ℝ) : Real.sin (degToRad (-a)) = -Real.sin (degToRad a) := by
  have : degToRad (-a) = -degToRad a := by unfold degToRad; ring
  rw [this, Real.sin_neg]

theorem sqrt3_bounds : (1732 / 1000 : ℝ) < Real.sqrt 3 ∧ Real.sqrt 3 < 1733 / 1000 := by
  constructor
  · apply Real.lt_sqrt_of_sq_lt; norm_num
  · rw [Real.sqrt_lt' (by norm_num)]; norm_num

theorem degToRad_sixty : degToRad (60 : ℝ) = Real.pi / 3 := by
  unfold degToRad
  simp only [cmath_pi_real]
  ring

theorem initialRay_velocity :
    (Main.initialRay (60 : ℝ)).velocity = ⟨6 / 10, Real.sqrt 3 * (6 / 10)⟩ := by
  simp only [Main.initialRay, LightRay.new, setRotation_velocity, degToRad_sixty, cmath_cos_real,
    cmath_sin_real, Real.cos_pi_div_three, Real.sin_pi_div_three]
  apply vector2f_ext <;> norm_num
  ring

theorem initialRay_magnitude : magnitude (Main.initialRay (60 : ℝ)).velocity = 12 / 10 := by
  rw [initialRay_velocity, magnitude_real]
  have h3 : Real.sqrt 3 * Real.sqrt 3 = 3 := Real.mul_self_sqrt (by norm_num)
  have : (6 / 10 : ℝ) * (6 / 10) + Real.sqrt 3 * (6 / 10) * (Real.sqrt 3 * (6 / 10))
      = (12 / 10) ^ 2 := by nlinarith
  simp only [this]
  exact Real.sqrt_sq (by norm_num)

theorem initialRay_sin_rotation :
    Real.sin (degToRad (Main.initialRay (60 : ℝ)).rotation) = Real.sqrt 3 / 2 := by
  rw [sin_rotation_of_direction _ (Or.inr rfl), initialRay_magnitude, initialRay_velocity]
  ring

theorem scenarioRay_succ (k : ℕ) :
    Main.scenarioRay (k + 1) = (Main.scenarioRay k).update 200 400 1.5 1 := rfl

theorem scenarioRay_travel (k : ℕ) (hk : k ≤ 54) :
    Main.scenarioRay k =
      { Main.initialRay (60 : ℝ) with
        position := ⟨100 + k * (6 / 10), 300 + k * (Real.sqrt 3 * (6 / 10))⟩ } := by
  induction k with
  | zero =>
    simp [Main.scenarioRay, LightRay.updateN]
    rfl
  | succ k ih =>
    have ih' := ih (by omega)
    have hkr : (k : ℝ) ≤ 53 := by exact_mod_cast (by omega : k ≤ 53)
    have hk0 : (0 : ℝ) ≤ k := Nat.cast_nonneg k
    obtain ⟨hlo, hhi⟩ := sqrt3_bounds
    rw [scenarioRay_succ, ih']
    have hno : ¬ LightRay.hits ({ Main.initialRay (60 : ℝ) with
        position := ⟨100 + k * (6 / 10), 300 + k * (Real.sqrt 3 * (6 / 10))⟩ } : LightRay ℝ)
        200 400 := by
      unfold LightRay.hits crossesBoundary
      rw [leadingEdge_y]
      simp only [initialRay_sin_rotation, initialRay_velocity]
      have h1 : (k : ℝ) * Real.sqrt 3 ≤ 53 * Real.sqrt 3 :=
        mul_le_mul_of_nonneg_right hkr (Real.sqrt_nonneg 3)
      have h2 : 0 ≤ (k : ℝ) * Real.sqrt 3 := mul_nonneg hk0 (Real.sqrt_nonneg 3)
      intro h
      rcases h with h | h <;> nlinarith
    rw [update_of_not_hits _ _ _ _ _ rfl hno]
    simp only [LightRay.move, Vector2f.add, initialRay_velocity, Nat.cast_add, Nat.cast_one]
    congr 1
    apply vector2f_ext <;> simp <;> ring

theorem arccos_sqrt3_half : Real.arccos (Real.sqrt 3 / 2) = Real.pi / 6 := by
  rw [← Real.cos_pi_div_six]
  apply Real.arccos_cos <;> linarith [Real.pi_pos]

theorem scenarioRay54_velocity :
    (Main.scenarioRay 54).velocity = ⟨6 / 10, Real.sqrt 3 * (6 / 10)⟩ := by
  rw [scenarioRay_travel 54 le_rfl]; exact initialRay_velocity

theorem scenarioRay54_magnitude : magnitude (Main.scenarioRay 54).velocity = 12 / 10 := by
  rw [scenarioRay_travel 54 le_rfl]; exact initialRay_magnitude

theorem scenarioRay54_edge : (Main.scenarioRay 54).leadingEdge.y = 300 + 58 * Real.sqrt 3 := by
  have hsin : Real.sin (degToRad (Main.scenarioRay 54).rotation) = Real.sqrt 3 / 2 := by
    rw [scenarioRay_travel 54 le_rfl]; exact initialRay_sin_rotation
  have hpos : (Main.scenarioRay 54).position.y = 300 + 54 * (Real.sqrt 3 * (6 / 10)) := by
    rw [scenarioRay_travel 54 le_rfl]; norm_num
  rw [leadingEdge_y, hsin, hpos, scenarioRay54_velocity]; ring

theorem scenarioRay54_bottom : (400 : ℝ) ≤ (Main.scenarioRay 54).leadingEdge.y := by
  rw [scenarioRay54_edge]; linarith [sqrt3_bounds.1]

theorem scenarioRay54_not_top : ¬ (Main.scenarioRay 54).leadingEdge.y ≤ 200 := by
  rw [scenarioRay54_edge]; intro h; linarith [sqrt3_bounds.1]

theorem scenarioRay54_theta1 : (Main.scenarioRay 54).theta1 200 = Real.pi - Real.pi / 6 := by
  rw [theta1_toward (Main.scenarioRay 54) 200 400 (by norm_num)
    (Or.inr ⟨by rw [scenarioRay54_velocity]; positivity, scenarioRay54_bottom⟩),
    scenarioRay54_magnitude, scenarioRay54_velocity]
  simp only
  rw [abs_of_pos (by positivity)]
  have : Real.sqrt 3 * (6 / 10) / (12 / 10) = Real.sqrt 3 / 2 := by ring
  rw [this, arccos_sqrt3_half]

theorem scenarioRay54_snell : (Main.scenarioRay 54).snell 200 1.5 1 = 3 / 4 := by
  unfold LightRay.snell sinTheta2
  rw [scenarioRay54_theta1]
  simp only [cmath_sin_real, Real.sin_pi_sub, Real.sin_pi_div_six]
  norm_num

theorem scenarioRay55_fields :
    (Main.scenarioRay 55).hasUpdatedAngles = true ∧
    (Main.scenarioRay 55).exited = true ∧
    (Main.scenarioRay 55).currentIncidenceAngle = 150 ∧
    (Main.scenarioRay 55).currentRefractionAngle = radToDeg (Real.arcsin (3 / 4)) ∧
    (Main.scenarioRay 55).velocity
      = ⟨Real.cos (Real.arcsin (3 / 4)) * (12 / 10), 9 / 10⟩ := by
  have hno : ¬ 1 < (Main.scenarioRay 54).snell 200 1.5 1 := by
    rw [scenarioRay54_snell]; norm_num
  have hex : (Main.scenarioRay 54).exited = false := by
    rw [scenarioRay_travel 54 le_rfl]; rfl
  rw [scenarioRay_succ, update_of_refraction _ 200 400 1.5 1 hex (Or.inr scenarioRay54_bottom) hno]
  refine ⟨rfl, rfl, ?_, ?_, ?_⟩
  · show radToDeg ((Main.scenarioRay 54).theta1 200) = 150
    rw [scenarioRay54_theta1]
    unfold radToDeg
    simp only [cmath_pi_real]
    field_simp
    ring
  · show radToDeg (Real.arcsin ((Main.scenarioRay 54).snell 200 1.5 1)) = _
    rw [scenarioRay54_snell]
  · simp only [setRotation_velocity, cmath_cos_real, cmath_sin_real, cmath_asin_real]
    rw [if_neg scenarioRay54_not_top, scenarioRay54_snell, scenarioRay54_magnitude,
      Real.sin_arcsin (by norm_num) (by norm_num)]
    apply vector2f_ext <;> norm_num

theorem radToDeg_pos {x : ℝ} (h : 0 < x) : 0 < radToDeg x := by
  unfold radToDeg
  simp only [cmath_pi_real]
  have := Real.pi_pos
  positivity

theorem radToDeg_injective {a b : ℝ} (h : radToDeg a = radToDeg b) : a = b := by
  have := congrArg degToRad h
  rwa [degToRad_radToDeg, degToRad_radToDeg] at this

theorem arccos_ne_arcsin (x : ℝ) (h0 : 0 ≤ x) (h1 : x ≤ 1) (hx : 2 * (x * x) ≠ 1) :
    Real.arccos x ≠ Real.arcsin x := by
  intro h
  rw [Real.arccos_eq_pi_div_two_sub_arcsin] at h
  have h4 : Real.arcsin x = Real.pi / 4 := by linarith
  have hs : Real.sin (Real.arcsin x) = x := Real.sin_arcsin (by linarith) h1
  rw [h4, Real.sin_pi_div_four] at hs
  have h2 : Real.sqrt 2 * Real.sqrt 2 = 2 := Real.mul_self_sqrt (by norm_num)
  apply hx
  rw [← hs]
  nlinarith

theorem magnitude_three_four : magnitude (⟨3, -4⟩ : Vector2f ℝ) = 5 := by
  rw [magnitude_real]
  have : (3 : ℝ) * 3 + -4 * -4 = 5 * 5 := by norm_num
  simp only [this]
  exact Real.sqrt_mul_self (by norm_num)

theorem magnitude_four_three : magnitude (⟨4, -3⟩ : Vector2f ℝ) = 5 := by
  rw [magnitude_real]
  have : (4 : ℝ) * 4 + -3 * -3 = 5 * 5 := by norm_num
  simp only [this]
  exact Real.sqrt_mul_self (by norm_num)

/-- C2 (refraction), in exact real arithmetic: a non-exited ray whose leading edge after
the move is at or beyond a boundary and for which `sinTheta2 = (n1 / n2) * sin theta1` is
at most `1` records `theta2 = asin sinTheta2` in degrees, becomes exited, gets the velocity
`(cos theta2 * speed, sign * sin theta2 * speed)`, and that velocity has the magnitude of
the velocity before the call. -/
theorem update_refraction (r : LightRay ℝ) (fiberTop fiberBottom n1 n2 : ℝ)
    (hex : r.exited = false) (hhit : r.hits fiberTop fiberBottom)
    (hle : n1 / n2 * Real.sin (r.theta1 fiberTop) ≤ 1) :
    (r.update fiberTop fiberBottom n1 n2).currentRefractionAngle
        = radToDeg (Real.arcsin (n1 / n2 * Real.sin (r.theta1 fiberTop))) ∧
    (r.update fiberTop fiberBottom n1 n2).exited = true ∧
    (r.update fiberTop fiberBottom n1 n2).velocity =
      ⟨Real.cos (Real.arcsin (n1 / n2 * Real.sin (r.theta1 fiberTop))) * magnitude r.velocity,
       (if r.leadingEdge.y ≤ fiberTop then -1 else 1)
          * Real.sin (Real.arcsin (n1 / n2 * Real.sin (r.theta1 fiberTop)))
          * magnitude r.velocity⟩ ∧
    Real.sqrt ((r.update fiberTop fiberBottom n1 n2).velocity.x ^ 2
        + (r.update fiberTop fiberBottom n1 n2).velocity.y ^ 2)
      = Real.sqrt (r.velocity.x ^ 2 + r.velocity.y ^ 2) := by
  have hno : ¬ 1 < r.snell fiberTop n1 n2 := not_lt.mpr hle
  rw [update_of_refraction r fiberTop fiberBottom n1 n2 hex hhit hno]
  refine ⟨rfl, rfl, rfl, ?_⟩
  have hm := magnitude_polar (Real.arcsin (n1 / n2 * Real.sin (r.theta1 fiberTop)))
    (magnitude r.velocity) (if r.leadingEdge.y ≤ fiberTop then -1 else 1)
    (magnitude_nonneg _) (by split_ifs <;> simp)
  simp only [magnitude_real, ← pow_two] at hm
  simp only [setRotation_velocity, cmath_cos_real, cmath_sin_real, cmath_asin_real,
    magnitude_real, ← pow_two, LightRay.snell, sinTheta2]
  exact hm

theorem updateN_of_exited (r : LightRay ℝ) (fiberTop fiberBottom n1 n2 : ℝ)
    (hex : r.exited = true) (k : ℕ) :
    LightRay.updateN fiberTop fiberBottom n1 n2 k r =
      { r with position := ⟨r.position.x + k * r.velocity.x, r.position.y + k * r.velocity.y⟩ } ∧
    (LightRay.updateN fiberTop fiberBottom n1 n2 k r).exited = true := by
  induction k with
  | zero =>
    obtain ⟨⟨px, py⟩, rot, col, vel, ex, ia, ra, hu⟩ := r
    simp_all [LightRay.updateN]
  | succ k ih =>
    obtain ⟨ih1, ih2⟩ := ih
    have hstep : LightRay.updateN fiberTop fiberBottom n1 n2 (k + 1) r =
        (LightRay.updateN fiberTop fiberBottom n1 n2 k r).move
          (LightRay.updateN fiberTop fiberBottom n1 n2 k r).velocity :=
      update_of_exited _ fiberTop fiberBottom n1 n2 ih2
    rw [hstep, ih1]
    refine ⟨?_, hex⟩
    simp only [LightRay.move, Vector2f.add, Nat.cast_add, Nat.cast_one]
    congr 1
    apply vector2f_ext <;> simp <;> ring

/-- C3 (exited rays are frozen), in exact real arithmetic: for an exited ray and any
geometry and indices, `update` changes only the position, to `position + velocity`
(rotation, colour, velocity, the exited flag and the three angle fields are unchanged),
whatever the position of the leading edge; after `k` calls the position is
`position + k * velocity`, nothing else has changed and the ray is still exited. -/
theorem exited_ray_frozen (r : LightRay ℝ) (fiberTop fiberBottom n1 n2 : ℝ)
    (hex : r.exited = true) :
    r.update fiberTop fiberBottom n1 n2 =
      { r with position := ⟨r.position.x + r.velocity.x, r.position.y + r.velocity.y⟩ } ∧
    ∀ k : ℕ,
      LightRay.updateN fiberTop fiberBottom n1 n2 k r =
        { r with
          position := ⟨r.position.x + k * r.velocity.x, r.position.y + k * r.velocity.y⟩ } ∧
      (LightRay.updateN fiberTop fiberBottom n1 n2 k r).exited = true :=
  ⟨update_of_exited r fiberTop fiberBottom n1 n2 hex,
    updateN_of_exited r fiberTop fiberBottom n1 n2 hex⟩

/-- C6 (boundary symmetry), in exact real arithmetic: in a fibre with `top < bottom`, let
`r` be a non-exited ray hitting the top boundary and `m` its mirror image about the
mid-line (`y` replaced by `top + bottom - y`, `vy` by `-vy`, rotation negated, either as
raw degrees or as stored by `setRotation`; same `x` and `vx`).  Then `update` on `m` hits
the bottom boundary and its result mirrors the result on `r`: equal incidence angle, equal
refraction angle (sentinel included), equal exited flag, equal `vx`, opposite `vy`, and
mirrored position. -/
theorem boundary_symmetry (r m : LightRay ℝ) (fiberTop fiberBottom n1 n2 : ℝ)
    (hgeo : fiberTop < fiberBottom)
    (hex : r.exited = false) (htop : r.leadingEdge.y ≤ fiberTop)
    (hmx : m.position.x = r.position.x)
    (hmy : m.position.y = fiberTop + fiberBottom - r.position.y)
    (hvx : m.velocity.x = r.velocity.x) (hvy : m.velocity.y = -r.velocity.y)
    (hrot : m.rotation = -r.rotation ∨ m.rotation = (r.setRotation (-r.rotation)).rotation)
    (hmex : m.exited = false) :
    (fiberBottom ≤ m.leadingEdge.y ∧ ¬ m.leadingEdge.y ≤ fiberTop) ∧
    (m.update fiberTop fiberBottom n1 n2).currentIncidenceAngle
      = (r.update fiberTop fiberBottom n1 n2).currentIncidenceAngle ∧
    (m.update fiberTop fiberBottom n1 n2).currentRefractionAngle
      = (r.update fiberTop fiberBottom n1 n2).currentRefractionAngle ∧
    (m.update fiberTop fiberBottom n1 n2).exited
      = (r.update fiberTop fiberBottom n1 n2).exited ∧
    (m.update fiberTop fiberBottom n1 n2).velocity.x
      = (r.update fiberTop fiberBottom n1 n2).velocity.x ∧
    (m.update fiberTop fiberBottom n1 n2).velocity.y
      = -(r.update fiberTop fiberBottom n1 n2).velocity.y ∧
    (m.update fiberTop fiberBottom n1 n2).position.x
      = (r.update fiberTop fiberBottom n1 n2).position.x ∧
    (m.update fiberTop fiberBottom n1 n2).position.y
      = fiberTop + fiberBottom - (r.update fiberTop fiberBottom n1 n2).position.y := by
  have hsin : Real.sin (degToRad m.rotation) = -Real.sin (degToRad r.rotation) := by
    rcases hrot with h | h
    · rw [h, sin_degToRad_neg]
    · rw [h, sin_setRotation, sin_degToRad_neg]
  have hler := leadingEdge_y r
  have hlem := leadingEdge_y m
  rw [hsin, hmy, hvy] at hlem
  have hmirror : m.leadingEdge.y = fiberTop + fiberBottom - r.leadingEdge.y := by
    rw [hlem, hler]; ring
  have hbot : fiberBottom ≤ m.leadingEdge.y := by rw [hmirror]; linarith
  have hntop : ¬ m.leadingEdge.y ≤ fiberTop := by rw [hmirror]; intro h; linarith
  have hhitr : r.hits fiberTop fiberBottom := Or.inl htop
  have hhitm : m.hits fiberTop fiberBottom := Or.inr hbot
  have hmv : m.velocity = ⟨r.velocity.x, -r.velocity.y⟩ := vector2f_ext _ _ hvx hvy
  have hmag : magnitude m.velocity = magnitude r.velocity := by
    rw [hmv]; exact magnitude_neg_y _ _
  have hth : m.theta1 fiberTop = r.theta1 fiberTop := by
    unfold LightRay.theta1 cosTheta1 boundaryNormal Vector2f.divScalar
    rw [if_neg hntop, if_pos htop, hmag, hvx, hvy]
    simp only [cmath_acos_real]
    congr 1
    ring
  have hsn : m.snell fiberTop n1 n2 = r.snell fiberTop n1 n2 := by
    unfold LightRay.snell; rw [hth]
  have hpx : (m.position.add m.velocity).x = (r.position.add r.velocity).x := by
    simp [Vector2f.add, hmx, hvx]
  have hpy : (m.position.add m.velocity).y
      = fiberTop + fiberBottom - (r.position.add r.velocity).y := by
    simp [Vector2f.add, hmy, hvy]; ring
  refine ⟨⟨hbot, hntop⟩, ?_⟩
  by_cases htir : 1 < r.snell fiberTop n1 n2
  · have htirm : 1 < m.snell fiberTop n1 n2 := by rw [hsn]; exact htir
    rw [update_of_tir r fiberTop fiberBottom n1 n2 hex hhitr htir,
      update_of_tir m fiberTop fiberBottom n1 n2 hmex hhitm htirm]
    simp only [setRotation_incidence, setRotation_refraction, setRotation_exited,
      setRotation_velocity, setRotation_position, hth, hex, hmex, hvx, hvy, hpx, hpy]
    simp
  · have htirm : ¬ 1 < m.snell fiberTop n1 n2 := by rw [hsn]; exact htir
    rw [update_of_refraction r fiberTop fiberBottom n1 n2 hex hhitr htir,
      update_of_refraction m fiberTop fiberBottom n1 n2 hmex hhitm htirm]
    simp only [setRotation_incidence, setRotation_refraction, setRotation_exited,
      setRotation_velocity, setRotation_position, hth, hsn, hmag, hpx, hpy, if_pos htop,
      if_neg hntop]
    simp

/-- C10 (a reflected ray returns to plain travelling), in exact real arithmetic: in a fibre
with `bottom - top > 100 + speed`, take a non-exited ray whose rotation is the direction
`atan2(vy, vx)` of its velocity (as raw degrees, or as stored by `setRotation`) and whose
leading edge is strictly inside the fibre before the step.  If `update` performs a total
internal reflection, then at the next `update` the leading edge is strictly inside the
fibre again and that call only translates the position. -/
theorem reflected_ray_keeps_travelling (r : LightRay ℝ) (fiberTop fiberBottom n1 n2 : ℝ)
    (hgeo : 100 + magnitude r.velocity < fiberBottom - fiberTop)
    (hex : r.exited = false)
    (hrot : r.rotation = radToDeg (CMath.atan2 r.velocity.y r.velocity.x) ∨
      r.rotation = (r.setRotation (radToDeg (CMath.atan2 r.velocity.y r.velocity.x))).rotation)
    (hin : fiberTop < r.frontPoint.y ∧ r.frontPoint.y < fiberBottom)
    (hhit : r.hits fiberTop fiberBottom)
    (htir : 1 < n1 / n2 * Real.sin (r.theta1 fiberTop)) :
    (fiberTop < (r.update fiberTop fiberBottom n1 n2).leadingEdge.y ∧
      (r.update fiberTop fiberBottom n1 n2).leadingEdge.y < fiberBottom) ∧
    ¬ (r.update fiberTop fiberBottom n1 n2).hits fiberTop fiberBottom ∧
    (r.update fiberTop fiberBottom n1 n2).update fiberTop fiberBottom n1 n2 =
      { r.update fiberTop fiberBottom n1 n2 with
        position := (r.update fiberTop fiberBottom n1 n2).position.add
          (r.update fiberTop fiberBottom n1 n2).velocity } := by
  have hs := sin_rotation_of_direction r hrot
  have hfp := frontPoint_y r
  have hle := leadingEdge_y r
  rw [hs] at hfp hle
  have hup := update_of_tir r fiberTop fiberBottom n1 n2 hex hhit htir
  set r1 := r.update fiberTop fiberBottom n1 n2 with hr1
  have hv1 : r1.velocity = ⟨r.velocity.x, -r.velocity.y⟩ := by rw [hup]; rfl
  have hp1 : r1.position.y = r.position.y + r.velocity.y := by rw [hup]; rfl
  have hex1 : r1.exited = false := by rw [hup]; exact hex
  have hs1 : Real.sin (degToRad r1.rotation) = -r.velocity.y / magnitude r.velocity := by
    rw [hup, sin_setRotation, degToRad_radToDeg, sin_atan2, magnitude_neg_y]
  have hle1 := leadingEdge_y r1
  rw [hs1, hv1, hp1] at hle1
  simp only at hle1
  have habs := abs_y_le_magnitude r.velocity
  have hmag0 := magnitude_nonneg r.velocity
  obtain ⟨hin1, hin2⟩ := hin
  have hvy : r.velocity.y ≠ 0 := by
    intro h0
    rw [h0] at hle hfp
    rcases hhit with h | h
    · unfold crossesBoundary at *; linarith
    · linarith
  have hmag := magnitude_pos_of_y_ne r.velocity hvy
  have hq : |r.velocity.y / magnitude r.velocity| ≤ 1 := by
    rw [abs_div, abs_of_pos hmag]
    exact (div_le_one hmag).mpr habs
  have hq' := abs_le.mp hq
  have hy' := abs_le.mp habs
  have hneg : -r.velocity.y / magnitude r.velocity = -(r.velocity.y / magnitude r.velocity) := by
    ring
  rw [hneg] at hle1
  have key : fiberTop < r1.leadingEdge.y ∧ r1.leadingEdge.y < fiberBottom := by
    rcases hhit with h | h
    · have h' : r.leadingEdge.y ≤ fiberTop := h
      have hvneg : r.velocity.y < 0 := by linarith
      have hqneg : r.velocity.y / magnitude r.velocity < 0 := div_neg_of_neg_of_pos hvneg hmag
      constructor <;> rw [hle1] <;> linarith
    · have h' : fiberBottom ≤ r.leadingEdge.y := h
      have hvpos : 0 < r.velocity.y := by linarith
      have hqpos : 0 < r.velocity.y / magnitude r.velocity := div_pos hvpos hmag
      constructor <;> rw [hle1] <;> linarith
  have hno : ¬ r1.hits fiberTop fiberBottom := by
    intro h
    rcases h with h | h <;> linarith [key.1, key.2]
  exact ⟨key, hno, update_of_not_hits r1 fiberTop fiberBottom n1 n2 hex1 hno⟩

/-- C4 (program-level scenario, incidence angle 60 degrees, `n1 = 1.5`, `n2 = 1.0`),
evaluated in exact real arithmetic: the ray `main` spawns at `(100, 300)` with velocity
`(1.2 cos 60, 1.2 sin 60)` makes no boundary interaction during its first 54 updates; the
55th update is its first boundary interaction, where `sinTheta2 = 3/4`, so the ray is
refracted, not reflected: it is marked exited, the recorded incidence angle is `150`
degrees, the recorded refraction angle is `asin (3/4)` in degrees, which is positive (the
readout does not show the sentinel), and the vertical velocity goes from `0.6 sqrt 3` to
`0.9` instead of being negated. -/
theorem scenario_sixty_degrees_refracts :
    Main.scenarioRay 0 =
      LightRay.new ⟨100, 300⟩
        ⟨Real.cos (degToRad 60) * (12 / 10), Real.sin (degToRad 60) * (12 / 10)⟩ ∧
    (∀ k : ℕ, k ≤ 54 →
      (Main.scenarioRay k).hasUpdatedAngles = false ∧ (Main.scenarioRay k).exited = false) ∧
    (Main.scenarioRay 54).hits Main.fiberTop Main.fiberBottom ∧
    (Main.scenarioRay 54).snell Main.fiberTop 1.5 1 = 3 / 4 ∧
    (Main.scenarioRay 55).hasUpdatedAngles = true ∧
    (Main.scenarioRay 55).exited = true ∧
    (Main.scenarioRay 55).currentIncidenceAngle = 150 ∧
    (Main.scenarioRay 55).currentRefractionAngle = radToDeg (Real.arcsin (3 / 4)) ∧
    0 < (Main.scenarioRay 55).currentRefractionAngle ∧
    (Main.scenarioRay 55).showsTIR = false ∧
    (Main.scenarioRay 54).velocity.y = Real.sqrt 3 * (6 / 10) ∧
    (Main.scenarioRay 55).velocity.y = 9 / 10 := by
  obtain ⟨h1, h2, h3, h4, h5⟩ := scenarioRay55_fields
  have hpos : 0 < (Main.scenarioRay 55).currentRefractionAngle := by
    rw [h4]; exact radToDeg_pos (Real.arcsin_pos.mpr (by norm_num))
  refine ⟨rfl, ?_, Or.inr scenarioRay54_bottom, scenarioRay54_snell, h1, h2, h3, h4, hpos,
    ?_, ?_, ?_⟩
  · intro k hk
    rw [scenarioRay_travel k hk]
    exact ⟨rfl, rfl⟩
  · simp only [LightRay.showsTIR, decide_eq_false_iff_not, not_lt]
    exact hpos.le
  · rw [scenarioRay54_velocity]
  · rw [h5]

theorem constructed_ray_refraction :
    (LightRay.new (⟨100, 243⟩ : Vector2f ℝ) ⟨3, -4⟩).exited = false ∧
    (LightRay.new (⟨100, 243⟩ : Vector2f ℝ) ⟨3, -4⟩).hits 200 400 ∧
    (LightRay.new (⟨100, 243⟩ : Vector2f ℝ) ⟨3, -4⟩).snell 200 1 1 = 3 / 5 ∧
    ((LightRay.new (⟨100, 243⟩ : Vector2f ℝ) ⟨3, -4⟩).update 200 400 1 1).exited = true ∧
    ((LightRay.new (⟨100, 243⟩ : Vector2f ℝ) ⟨3, -4⟩).update 200 400 1 1).velocity = ⟨4, -3⟩ ∧
    ((LightRay.new (⟨100, 243⟩ : Vector2f ℝ) ⟨3, -4⟩).update 200 400 1 1).currentRefractionAngle
      = radToDeg (Real.arcsin (3 / 5)) ∧
    acuteAngleToNormal
        ((LightRay.new (⟨100, 243⟩ : Vector2f ℝ) ⟨3, -4⟩).update 200 400 1 1).velocity
      = radToDeg (Real.arccos (3 / 5)) ∧
    acuteAngleToNormal
        ((LightRay.new (⟨100, 243⟩ : Vector2f ℝ) ⟨3, -4⟩).update 200 400 1 1).velocity
      ≠ ((LightRay.new (⟨100, 243⟩ : Vector2f ℝ) ⟨3, -4⟩).update 200 400 1 1).currentRefractionAngle := by
  set r := LightRay.new (⟨100, 243⟩ : Vector2f ℝ) ⟨3, -4⟩ with hr
  have hvel : r.velocity = ⟨3, -4⟩ := rfl
  have hposy : r.position.y = 243 := rfl
  have hex : r.exited = false := rfl
  have hmag : magnitude r.velocity = 5 := by rw [hvel]; exact magnitude_three_four
  have hsin : Real.sin (degToRad r.rotation) = -4 / 5 := by
    rw [sin_rotation_of_direction r (Or.inr rfl), hmag, hvel]
  have hedge : r.leadingEdge.y = 199 := by
    rw [leadingEdge_y, hsin, hposy, hvel]; norm_num
  have htop : r.leadingEdge.y ≤ 200 := by rw [hedge]; norm_num
  have hhit : r.hits 200 400 := Or.inl htop
  have hth : r.theta1 200 = Real.arccos (-4 / 5) := by
    unfold LightRay.theta1 cosTheta1 boundaryNormal Vector2f.divScalar
    rw [if_pos htop, hmag, hvel]
    simp only [cmath_acos_real]
    norm_num
  have hsn : r.snell 200 1 1 = 3 / 5 := by
    unfold LightRay.snell sinTheta2
    rw [hth]
    simp only [cmath_sin_real, Real.sin_arccos]
    have : (1 : ℝ) - (-4 / 5) ^ 2 = (3 / 5) * (3 / 5) := by norm_num
    rw [this, Real.sqrt_mul_self (by norm_num)]
    norm_num
  have hno : ¬ 1 < r.snell 200 1 1 := by rw [hsn]; norm_num
  have hup := update_of_refraction r 200 400 1 1 hex hhit hno
  have hcos : Real.cos (Real.arcsin (3 / 5)) = 4 / 5 := by
    rw [Real.cos_arcsin]
    have : (1 : ℝ) - (3 / 5) ^ 2 = (4 / 5) * (4 / 5) := by norm_num
    rw [this, Real.sqrt_mul_self (by norm_num)]
  have hsinasin : Real.sin (Real.arcsin (3 / 5)) = 3 / 5 :=
    Real.sin_arcsin (by norm_num) (by norm_num)
  have hnewv : (r.update 200 400 1 1).velocity = ⟨4, -3⟩ := by
    rw [hup]
    simp only [setRotation_velocity, cmath_cos_real, cmath_sin_real, cmath_asin_real]
    rw [if_pos htop, hsn, hmag, hcos, hsinasin]
    apply vector2f_ext <;> norm_num
  have hang : (r.update 200 400 1 1).currentRefractionAngle = radToDeg (Real.arcsin (3 / 5)) := by
    rw [hup]
    show radToDeg (Real.arcsin (r.snell 200 1 1)) = _
    rw [hsn]
  have hacute : acuteAngleToNormal (r.update 200 400 1 1).velocity
      = radToDeg (Real.arccos (3 / 5)) := by
    rw [hnewv]
    unfold acuteAngleToNormal
    rw [magnitude_four_three]
    norm_num
  refine ⟨hex, hhit, hsn, ?_, hnewv, hang, hacute, ?_⟩
  · rw [hup]; rfl
  · rw [hacute, hang]
    intro h
    exact arccos_ne_arcsin (3 / 5) (by norm_num) (by norm_num) (by norm_num)
      (radToDeg_injective h)

/-- C5 (the refraction angle is measured from the boundary normal), evaluated in exact
real arithmetic at two rays.  First, the ray built by the constructor at `(100, 243)` with
velocity `(3, -4)`, in the fibre `top = 200`, `bottom = 400` with `n1 = n2 = 1`: it hits the
top boundary, `sinTheta2 = 3/5`, it is refracted, its new velocity is `(4, -3)` and the
recorded refraction angle is `asin (3/5)` in degrees, whereas the angle between the new
velocity and the normal line is `acos (3/5)` in degrees, a different angle.  Second, the
ray of the program started with the angle `60`, `n1 = 1.5`, `n2 = 1.0`, at its 55th update:
the recorded refraction angle is `asin (3/4)` in degrees, the angle between the new
velocity and the normal line is `acos (3/4)` in degrees. -/
theorem refraction_angle_not_from_normal :
    ((LightRay.new (⟨100, 243⟩ : Vector2f ℝ) ⟨3, -4⟩).hits 200 400 ∧
     (LightRay.new (⟨100, 243⟩ : Vector2f ℝ) ⟨3, -4⟩).snell 200 1 1 = 3 / 5 ∧
     ((LightRay.new (⟨100, 243⟩ : Vector2f ℝ) ⟨3, -4⟩).update 200 400 1 1).exited = true ∧
     ((LightRay.new (⟨100, 243⟩ : Vector2f ℝ) ⟨3, -4⟩).update 200 400 1 1).velocity = ⟨4, -3⟩ ∧
     ((LightRay.new (⟨100, 243⟩ : Vector2f ℝ) ⟨3, -4⟩).update 200 400 1 1).currentRefractionAngle
       = radToDeg (Real.arcsin (3 / 5)) ∧
     acuteAngleToNormal
         ((LightRay.new (⟨100, 243⟩ : Vector2f ℝ) ⟨3, -4⟩).update 200 400 1 1).velocity
       = radToDeg (Real.arccos (3 / 5)) ∧
     acuteAngleToNormal
         ((LightRay.new (⟨100, 243⟩ : Vector2f ℝ) ⟨3, -4⟩).update 200 400 1 1).velocity
       ≠ ((LightRay.new (⟨100, 243⟩ : Vector2f ℝ) ⟨3, -4⟩).update 200 400 1 1).currentRefractionAngle) ∧
    ((Main.scenarioRay 55).exited = true ∧
     (Main.scenarioRay 55).currentRefractionAngle = radToDeg (Real.arcsin (3 / 4)) ∧
     acuteAngleToNormal (Main.scenarioRay 55).velocity = radToDeg (Real.arccos (3 / 4)) ∧
     acuteAngleToNormal (Main.scenarioRay 55).velocity
       ≠ (Main.scenarioRay 55).currentRefractionAngle) := by
  constructor
  · obtain ⟨_, h2, h3, h4, h5, h6, h7, h8⟩ := constructed_ray_refraction
    exact ⟨h2, h3, h4, h5, h6, h7, h8⟩
  · obtain ⟨_, h2, _, h4, h5⟩ := scenarioRay55_fields
    have hc : Real.cos (Real.arcsin (3 / 4)) * Real.cos (Real.arcsin (3 / 4)) = 7 / 16 := by
      have := Real.cos_sq_add_sin_sq (Real.arcsin (3 / 4))
      rw [Real.sin_arcsin (by norm_num) (by norm_num)] at this
      rw [← pow_two]
      norm_num at this
      linarith
    have hmag : magnitude (Main.scenarioRay 55).velocity = 12 / 10 := by
      rw [h5, magnitude_real]
      have : Real.cos (Real.arcsin (3 / 4)) * (12 / 10) * (Real.cos (Real.arcsin (3 / 4)) * (12 / 10))
          + (9 / 10 : ℝ) * (9 / 10) = (12 / 10) * (12 / 10) := by nlinarith
      simp only [this]
      exact Real.sqrt_mul_self (by norm_num)
    have hacute : acuteAngleToNormal (Main.scenarioRay 55).velocity
        = radToDeg (Real.arccos (3 / 4)) := by
      unfold acuteAngleToNormal
      rw [hmag, h5]
      simp only
      rw [abs_of_pos (by norm_num)]
      norm_num
    refine ⟨h2, h4, hacute, ?_⟩
    rw [hacute, h4]
    intro h
    exact arccos_ne_arcsin (3 / 4) (by norm_num) (by norm_num) (by norm_num) (radToDeg_injective h)

/-! ## The theorems at concrete rays -/

theorem degToRad_thirty : degToRad (30 : ℝ) = Real.pi / 6 := by
  unfold degToRad
  simp only [cmath_pi_real]
  ring

theorem magnitude_sqrt3_one : magnitude (⟨Real.sqrt 3, 1⟩ : Vector2f ℝ) = 2 := by
  rw [magnitude_real]
  have h3 : Real.sqrt 3 * Real.sqrt 3 = 3 := Real.mul_self_sqrt (by norm_num)
  have : Real.sqrt 3 * Real.sqrt 3 + 1 * 1 = 2 * 2 := by rw [h3]; norm_num
  simp only [this]
  exact Real.sqrt_mul_self (by norm_num)

theorem magnitude_one_sqrt3 : magnitude (⟨1, Real.sqrt 3⟩ : Vector2f ℝ) = 2 := by
  rw [magnitude_real]
  have h3 : Real.sqrt 3 * Real.sqrt 3 = 3 := Real.mul_self_sqrt (by norm_num)
  have : (1 : ℝ) * 1 + Real.sqrt 3 * Real.sqrt 3 = 2 * 2 := by rw [h3]; norm_num
  simp only [this]
  exact Real.sqrt_mul_self (by norm_num)

theorem arccos_half : Real.arccos (1 / 2) = Real.pi / 3 := by
  rw [← Real.cos_pi_div_three]
  apply Real.arccos_cos <;> linarith [Real.pi_pos]

theorem ray60_edge : Examples.ray60.leadingEdge.y = 176 := by
  rw [leadingEdge_y]
  simp only [Examples.ray60, degToRad_thirty, Real.sin_pi_div_six]
  norm_num

theorem ray60_hits : Examples.ray60.hits 200 400 :=
  Or.inl (by rw [ray60_edge]; norm_num)

theorem ray60_theta1 : Examples.ray60.theta1 200 = Real.pi / 3 := by
  have htop : Examples.ray60.leadingEdge.y ≤ 200 := by rw [ray60_edge]; norm_num
  unfold LightRay.theta1 cosTheta1 boundaryNormal Vector2f.divScalar
  rw [if_pos htop]
  simp only [Examples.ray60, magnitude_sqrt3_one, cmath_acos_real]
  rw [← arccos_half]
  congr 1
  ring

theorem ray60_snell : Examples.ray60.snell 200 1.5 1 = 3 / 4 * Real.sqrt 3 := by
  unfold LightRay.snell sinTheta2
  rw [ray60_theta1]
  simp only [cmath_sin_real, Real.sin_pi_div_three]
  norm_num
  ring

theorem ray30_edge : Examples.ray30.leadingEdge.y = 100 + 26 * Real.sqrt 3 := by
  rw [leadingEdge_y]
  simp only [Examples.ray30, degToRad_sixty, Real.sin_pi_div_three]
  ring

theorem ray30_top : Examples.ray30.leadingEdge.y ≤ 200 := by
  rw [ray30_edge]
  linarith [sqrt3_bounds.2]

theorem ray30_theta1 : Examples.ray30.theta1 200 = Real.pi / 6 := by
  unfold LightRay.theta1 cosTheta1 boundaryNormal Vector2f.divScalar
  rw [if_pos ray30_top]
  simp only [Examples.ray30, magnitude_one_sqrt3, cmath_acos_real]
  rw [← arccos_sqrt3_half]
  congr 1
  ring

/-- Witness of C1: the ray `ray60` (`theta1 = 60` degrees) with `n1 = 1.5`, `n2 = 1`. -/
theorem update_total_internal_reflection_witness :
    Examples.ray60.exited = false ∧ Examples.ray60.hits 200 400 ∧
    1 < Examples.ray60.snell 200 1.5 1 ∧
    (Examples.ray60.update 200 400 1.5 1).velocity.x = Examples.ray60.velocity.x ∧
    (Examples.ray60.update 200 400 1.5 1).velocity.y = -Examples.ray60.velocity.y ∧
    (Examples.ray60.update 200 400 1.5 1).exited = false ∧
    (Examples.ray60.update 200 400 1.5 1).currentRefractionAngle = -1 :=
  have htir : 1 < Examples.ray60.snell 200 1.5 1 := by
    rw [ray60_snell]; linarith [sqrt3_bounds.1]
  ⟨rfl, ray60_hits, htir,
    update_total_internal_reflection Examples.ray60 200 400 1.5 1 rfl ray60_hits htir⟩

/-- Witness of C2: the ray `ray30` (`theta1 = 30` degrees) with `n1 = 1.5`, `n2 = 1`, for
which `sinTheta2 = 0.75`. -/
theorem update_refraction_witness :
    Examples.ray30.exited = false ∧ Examples.ray30.hits 200 400 ∧
    (1.5 : ℝ) / 1 * Real.sin (Examples.ray30.theta1 200) = 3 / 4 ∧
    (Examples.ray30.update 200 400 1.5 1).currentRefractionAngle
      = radToDeg (Real.arcsin (1.5 / 1 * Real.sin (Examples.ray30.theta1 200))) ∧
    (Examples.ray30.update 200 400 1.5 1).exited = true ∧
    Real.sqrt ((Examples.ray30.update 200 400 1.5 1).velocity.x ^ 2
        + (Examples.ray30.update 200 400 1.5 1).velocity.y ^ 2)
      = Real.sqrt (Examples.ray30.velocity.x ^ 2 + Examples.ray30.velocity.y ^ 2) :=
  have hs : (1.5 : ℝ) / 1 * Real.sin (Examples.ray30.theta1 200) = 3 / 4 := by
    rw [ray30_theta1, Real.sin_pi_div_six]; norm_num
  have h := update_refraction Examples.ray30 200 400 1.5 1 rfl (Or.inl ray30_top)
    (by rw [hs]; norm_num)
  ⟨rfl, Or.inl ray30_top, hs, h.1, h.2.1, h.2.2.2⟩

/-- Witness of C3: three updates of an exited ray whose leading edge is above the top
boundary. -/
theorem exited_ray_frozen_witness :
    Examples.exitedRay.exited = true ∧ Examples.exitedRay.leadingEdge.y ≤ 200 ∧
    LightRay.updateN 200 400 1.5 1 3 Examples.exitedRay =
      { Examples.exitedRay with position := ⟨512, 141⟩ } := by
  have h := (exited_ray_frozen Examples.exitedRay 200 400 1.5 1 rfl).2 3
  refine ⟨rfl, ?_, ?_⟩
  · rw [leadingEdge_y]
    simp [Examples.exitedRay, degToRad]
    norm_num
  · rw [h.1]
    simp only [Examples.exitedRay]
    norm_num

theorem risingRay_magnitude : magnitude Examples.risingRay.velocity = 5 :=
  magnitude_four_three

theorem risingRay_sin : Real.sin (degToRad Examples.risingRay.rotation) = -3 / 5 := by
  rw [sin_rotation_of_direction Examples.risingRay (Or.inr rfl), risingRay_magnitude]
  rfl

theorem risingRay_edge : Examples.risingRay.leadingEdge.y = 200 := by
  rw [leadingEdge_y, risingRay_sin]
  simp only [Examples.risingRay, LightRay.new, setRotation_position, setRotation_velocity]
  norm_num

theorem risingRay_front : Examples.risingRay.frontPoint.y = 203 := by
  rw [frontPoint_y, risingRay_sin]
  simp only [Examples.risingRay, LightRay.new, setRotation_position]
  norm_num

theorem risingRay_top : Examples.risingRay.leadingEdge.y ≤ 200 := by
  rw [risingRay_edge]

theorem risingRay_snell :
    (1.5 : ℝ) / 1 * Real.sin (Examples.risingRay.theta1 200) = 6 / 5 := by
  have hth : Examples.risingRay.theta1 200 = Real.arccos (-3 / 5) := by
    unfold LightRay.theta1 cosTheta1 boundaryNormal Vector2f.divScalar
    rw [if_pos risingRay_top, risingRay_magnitude]
    simp only [Examples.risingRay, LightRay.new, setRotation_velocity, cmath_acos_real]
    norm_num
  rw [hth, Real.sin_arccos]
  have : (1 : ℝ) - (-3 / 5) ^ 2 = (4 / 5) * (4 / 5) := by norm_num
  rw [this, Real.sqrt_mul_self (by norm_num)]
  norm_num

/-- Witness of C6: `risingRay` and its mirror image `fallingRay` in the fibre `200 .. 400`
with `n1 = 1.5`, `n2 = 1`. -/
theorem boundary_symmetry_witness :
    Examples.risingRay.leadingEdge.y ≤ 200 ∧ 400 ≤ Examples.fallingRay.leadingEdge.y ∧
    (Examples.fallingRay.update 200 400 1.5 1).currentIncidenceAngle
      = (Examples.risingRay.update 200 400 1.5 1).currentIncidenceAngle ∧
    (Examples.fallingRay.update 200 400 1.5 1).currentRefractionAngle
      = (Examples.risingRay.update 200 400 1.5 1).currentRefractionAngle ∧
    (Examples.fallingRay.update 200 400 1.5 1).exited
      = (Examples.risingRay.update 200 400 1.5 1).exited ∧
    (Examples.fallingRay.update 200 400 1.5 1).velocity.x
      = (Examples.risingRay.update 200 400 1.5 1).velocity.x ∧
    (Examples.fallingRay.update 200 400 1.5 1).velocity.y
      = -(Examples.risingRay.update 200 400 1.5 1).velocity.y :=
  have h := boundary_symmetry Examples.risingRay Examples.fallingRay 200 400 1.5 1
    (by norm_num) rfl risingRay_top rfl
    (by show (367 : ℝ) = 200 + 400 - 233; norm_num) rfl
    (by show (3 : ℝ) = -(-3); norm_num) (Or.inr rfl) rfl
  ⟨risingRay_top, h.1.1, h.2.1, h.2.2.1, h.2.2.2.1, h.2.2.2.2.1, h.2.2.2.2.2.1⟩

/-- Witness of C10: `risingRay` is totally reflected at the top boundary of the fibre
`200 .. 400`; the next update only translates it. -/
theorem reflected_ray_keeps_travelling_witness :
    (200 < Examples.risingRay.frontPoint.y ∧ Examples.risingRay.frontPoint.y < 400) ∧
    Examples.risingRay.hits 200 400 ∧
    ¬ (Examples.risingRay.update 200 400 1.5 1).hits 200 400 ∧
    (Examples.risingRay.update 200 400 1.5 1).update 200 400 1.5 1 =
      { Examples.risingRay.update 200 400 1.5 1 with
        position := (Examples.risingRay.update 200 400 1.5 1).position.add
          (Examples.risingRay.update 200 400 1.5 1).velocity } :=
  have hin : 200 < Examples.risingRay.frontPoint.y ∧ Examples.risingRay.frontPoint.y < 400 := by
    rw [risingRay_front]; norm_num
  have h := reflected_ray_keeps_travelling Examples.risingRay 200 400 1.5 1
    (by rw [risingRay_magnitude]; norm_num) rfl (Or.inr rfl) hin (Or.inl risingRay_top)
    (by rw [risingRay_snell]; norm_num)
  ⟨hin, Or.inl risingRay_top, h.2.1, h.2.2⟩

end RealFacts

end Fibre
